import Mathlib

/-!
Shallow embedding of `src/detect_secrets/core/usage/filters.py`
(the filter declaration and resolution subsystem of detect-secrets).

Strings are modelled as `List Char` (`Str`), so that concatenation and
scanning proofs can use list induction.  `urlparse` models the scheme /
netloc / path extraction of CPython `urllib.parse.urlsplit`, including
its pre-parse input cleaning (leading C0-control/space strip and
tab/CR/LF byte removal); the bracketed-IPv6 / netloc validation that
can raise ValueError for malformed authorities is not modelled.  The
filter registry (the Python dict
`get_settings().filters`) is modelled as an association list with
dict semantics: setting an existing key updates it in place, setting a
new key appends.
-/

abbrev Str := List Char

/-- Association-list lookup, modelling Python attribute/dict lookup. -/
def alist {β : Type} (l : List (Str × β)) (k : Str) : Option β :=
  (l.find? (fun p => p.1 == k)).map Prod.snd

/-- Scheme characters accepted by CPython urlsplit
(letters, digits, `+`, `-`, `.`). -/
def schemeChar (c : Char) : Bool :=
  c.isAlpha || c.isDigit || c == '+' || c == '-' || c == '.'

/-- Scheme extraction of CPython urlsplit: the text before the first `:`
is a scheme when it is nonempty, starts with an ASCII letter and consists
of scheme characters only; it is lowercased.  Returns (scheme, remainder). -/
def splitScheme (s : Str) : Str × Str :=
  let pre := s.takeWhile (fun c => c != ':')
  if pre.length < s.length && !pre.isEmpty
      && (pre.headD ' ').isAlpha && pre.all schemeChar then
    (pre.map Char.toLower, s.drop (pre.length + 1))
  else
    ([], s)

/-- Netloc extraction of CPython urlsplit: when the remainder starts with
`//`, the netloc runs up to the next `/`, `?` or `#`. -/
def splitNetloc (s : Str) : Str × Str :=
  match s with
  | '/' :: '/' :: rest =>
    let nl := rest.takeWhile (fun c => c != '/' && c != '?' && c != '#')
    (nl, rest.drop nl.length)
  | _ => ([], s)

/-- Path component: CPython urlsplit cuts the fragment (after `#`) and the
query (after `?`) off the remainder. -/
def urlPath (s : Str) : Str := s.takeWhile (fun c => c != '#' && c != '?')

/-- The bytes CPython urlsplit removes from the URL before parsing
(`_UNSAFE_URL_BYTES_TO_REMOVE`). -/
def unsafeChar (c : Char) : Bool := c == '\t' || c == '\r' || c == '\n'

/-- Input cleaning CPython urlsplit performs before parsing: strip
leading WHATWG C0-control-or-space characters (codepoints up to 0x20),
then remove every tab, CR and LF (the three sequential `replace` calls
are order-independent, hence one filter). -/
def stripUrl (s : Str) : Str :=
  (s.dropWhile (fun c => decide (c.toNat ≤ 32))).filter
    (fun c => !unsafeChar c)

structure UrlParts where
  scheme : Str
  netloc : Str
  path : Str
deriving DecidableEq

/-- Model of `urllib.parse.urlparse` restricted to the three components the
source reads (`scheme`, `netloc`, `path`). -/
def urlparse (s : Str) : UrlParts :=
  let t := stripUrl s
  let sr := splitScheme t
  let nr := splitNetloc sr.2
  { scheme := sr.1, netloc := nr.1, path := urlPath nr.2 }

/-- Python substring test `'::' in s`. -/
def hasColons : Str → Bool
  | [] => false
  | [_] => false
  | a :: b :: rest => (a == ':' && b == ':') || hasColons (b :: rest)

/-- Python `s.split('::')`: leftmost, non-overlapping split on `::`. -/
def splitDC : Str → List Str
  | ':' :: ':' :: rest => [] :: splitDC rest
  | c :: rest =>
    match splitDC rest with
    | h :: t => (c :: h) :: t
    | [] => [[c]]
  | [] => [[]]

/-- Python `s.rsplit('.', 1)`: `none` models the caught ValueError when
there is no dot. -/
def rsplitDot (s : Str) : Option (Str × Str) :=
  if '.' ∈ s then
    let i := s.reverse.indexOf '.'
    some (s.take (s.length - 1 - i), s.drop (s.length - i))
  else
    none

/-- The `file://` scheme marker prepended to scheme-less local references. -/
def fileMarker : Str := "file://".toList

/-- Normalization done at the top of `valid_looking_paths`: a scheme-less
string containing `::` is reinterpreted as a local file reference by
prepending `file://`. -/
def normalizeRef (s : Str) : Str :=
  if (urlparse s).scheme.isEmpty && hasColons s then fileMarker ++ s else s

def msgNoFunctionName : Str :=
  "Did not specify function name for imported file.".toList
def msgNotValidFile (p : Str) : Str := p ++ " is not a valid file.".toList
def msgNotValidFilterPath (p : Str) : Str :=
  p ++ " is not a valid filter path.".toList

/-- `valid_looking_paths` (src/detect_secrets/core/usage/filters.py,
lines 103-130): the argparse type converter for `--filter`.  `fs` models
the set of paths for which `os.path.isfile` is true.  On success it
returns the (possibly normalized) path that argparse stores. -/
def valid_looking_paths (fs : List Str) (path : Str) : Except Str Str :=
  let path2 := normalizeRef path
  let parts := urlparse path2
  if parts.scheme == "file".toList then
    if (splitDC parts.path).length != 2 then
      Except.error msgNoFunctionName
    else
      let filePath := (splitDC (path2.drop fileMarker.length)).headD []
      if !(fs.contains filePath) then Except.error (msgNotValidFile filePath)
      else Except.ok path2
  else if !parts.scheme.isEmpty then
    Except.error (msgNotValidFilterPath path2)
  else
    Except.ok path2

/-- Environment for the Python-level effects the source performs:
which paths are files, which modules import successfully and which
attributes they expose (with an is-function flag, for
`inspect.isfunction`), which local files load as modules and which
attributes those expose (flag records callability, which the source
never checks in the file branch), and the feature gates of the optional
filters (external modules, modelled as booleans). -/
structure PyEnv where
  isFile : List Str
  modules : List (Str × List (Str × Bool))
  fileModules : List (Str × List (Str × Bool))
  wordlistEnabled : Bool
  gibberishEnabled : Bool
  classifierReady : Bool
  gpuAvailable : Bool

def msgInvalidModulePath : Str :=
  "Invalid Python module path for custom filter.".toList
def msgCannotImportModule (path : Str) : Str :=
  "Cannot import \"".toList ++ path ++ "\" as custom filter.".toList
def msgNoFilterFunction (fn container : Str) : Str :=
  "No filter function named `".toList ++ fn ++ "` found in \"".toList
    ++ container ++ "\".".toList
def msgNotFilterFunction (path : Str) : Str :=
  path ++ " is not a filter function.".toList
def msgCannotImportFile (fp : Str) : Str :=
  "Cannot import ".toList ++ fp ++ " as custom filter.".toList

/-- `_raise_if_custom_filter_path_is_invalid` (filters.py lines 246-287).
Returns `some message` when the Python function raises
`ArgumentTypeError` (or, in the two-component unpacking of line 273, an
uncaught ValueError), `none` when it returns normally.  Note the file
branch checks only that the attribute exists (`getattr`): it never
checks the flag recording callability. -/
def raiseIfInvalid (env : PyEnv) (path : Str) : Option Str :=
  let parts := urlparse path
  if parts.scheme.isEmpty then
    match rsplitDot path with
    | none => some msgInvalidModulePath
    | some (modulePath, functionName) =>
      match alist env.modules modulePath with
      | none => some (msgCannotImportModule path)
      | some attrs =>
        match alist attrs functionName with
        | none => some (msgNoFilterFunction functionName modulePath)
        | some isFn =>
          if isFn then none else some (msgNotFilterFunction path)
  else if parts.scheme == "file".toList then
    match splitDC (path.drop fileMarker.length) with
    | [filePath, functionName] =>
      match alist env.fileModules filePath with
      | none => some (msgCannotImportFile filePath)
      | some attrs =>
        match alist attrs functionName with
        | none => some (msgNoFilterFunction functionName filePath)
        | some _ => none
    | _ => some "ValueError".toList
  else
    none

/-- Parameter values stored in the filter registry: regex pattern lists
and the numeric verification level. -/
inductive ParamVal where
  | strs : List Str → ParamVal
  | num : Nat → ParamVal
deriving DecidableEq

abbrev Params := List (Str × ParamVal)

/-- The filter registry `get_settings().filters`: a Python dict modelled
as an association list (insertion ordered, unique keys). -/
abbrev Registry := List (Str × Params)

/-- Python dict assignment `d[k] = v`: update in place when the key is
present, append otherwise. -/
def setItem (r : Registry) (k : Str) (v : Params) : Registry :=
  if r.any (fun p => p.1 == k) then
    r.map (fun p => if p.1 == k then (k, v) else p)
  else
    r ++ [(k, v)]

def keys (r : Registry) : List Str := r.map Prod.fst

/-- Number of registry entries carrying a given identifier. -/
def countKey (r : Registry) (k : Str) : Nat := r.countP (fun p => p.1 == k)

/-- Well-formedness invariant of a Python dict: keys are unique. -/
def WF (r : Registry) : Prop := (keys r).Nodup

/-- Modelled from the spec: `get_settings().disable_filters` lives in the
settings module, which is not under src/; the spec says disabling removes
the listed identifiers from the registry, idempotently when absent. -/
def disable_filters (r : Registry) (ks : List Str) : Registry :=
  r.filter (fun p => !(ks.contains p.1))

/-- Modelled from the spec: the constants module defining `VerifiedResult`
is not under src/; the spec gives the ordered scale
UNVERIFIED < VERIFIED_FALSE < VERIFIED_TRUE, modelled as ranks 1 < 2 < 3. -/
inductive VerifiedResult where
  | UNVERIFIED
  | VERIFIED_FALSE
  | VERIFIED_TRUE
deriving DecidableEq

def VerifiedResult.value : VerifiedResult → Nat
  | .UNVERIFIED => 1
  | .VERIFIED_FALSE => 2
  | .VERIFIED_TRUE => 3

/-- Values passed as keyword arguments to the optional filters'
set-up calls (strings and floats; floats modelled as rationals,
the only operation the source performs on them is truthiness). -/
inductive PyVal where
  | s : Str → PyVal
  | q : Rat → PyVal
deriving DecidableEq

/-- Python truthiness of an optional string (None and '' are falsy). -/
def truthyStr : Option Str → Bool
  | none => false
  | some s => !s.isEmpty

/-- Python truthiness of an optional float (None and 0.0 are falsy). -/
def truthyNum : Option Rat → Bool
  | none => false
  | some v => v != 0

/-- The argparse namespace fields read by `parse_args`.  Repeatable
`append`-action options are lists (empty list models None — both are
falsy and the source only tests truthiness); `nargs=1` options are
lists of singleton lists before flattening. -/
structure Args where
  exclude_lines : List Str
  exclude_files : List Str
  exclude_secrets : List Str
  word_list_file : Option Str
  gibberish_model_file : Option Str
  gibberish_limit : Option Rat
  huggingface_model : Option Str
  threshold : Option Rat
  huggingface_token : Option Str
  no_verify : Bool
  only_verified : Bool
  disable_filter : List (List Str)
  filter : List (List Str)
deriving DecidableEq

def excludeLineKey : Str :=
  "detect_secrets.filters.regex.should_exclude_line".toList
def excludeFileKey : Str :=
  "detect_secrets.filters.regex.should_exclude_file".toList
def excludeSecretKey : Str :=
  "detect_secrets.filters.regex.should_exclude_secret".toList
def verifKey : Str :=
  "detect_secrets.filters.common.is_ignored_due_to_verification_policies".toList

/-- Lines 157-170 of filters.py: the three exclude-pattern registrations. -/
def applyExcludes (a : Args) (r : Registry) : Registry :=
  let r1 := if !a.exclude_lines.isEmpty then
      setItem r excludeLineKey [("pattern".toList, ParamVal.strs a.exclude_lines)]
    else r
  let r2 := if !a.exclude_files.isEmpty then
      setItem r1 excludeFileKey [("pattern".toList, ParamVal.strs a.exclude_files)]
    else r1
  if !a.exclude_secrets.isEmpty then
    setItem r2 excludeSecretKey [("pattern".toList, ParamVal.strs a.exclude_secrets)]
  else r2

/-- Lines 179-186: keyword arguments built for the gibberish filter
(a key is included only when the option value is truthy). -/
def gibberishKwargs (a : Args) : List (Str × PyVal) :=
  (if truthyStr a.gibberish_model_file then
    [("model_path".toList, PyVal.s (a.gibberish_model_file.getD []))]
  else []) ++
  (if truthyNum a.gibberish_limit then
    [("limit".toList, PyVal.q (a.gibberish_limit.getD 0))]
  else [])

/-- Lines 189-197: keyword arguments built for the classifier filter. -/
def classifierKwargs (a : Args) : List (Str × PyVal) :=
  (if truthyStr a.huggingface_model then
    [("huggingface_model".toList, PyVal.s (a.huggingface_model.getD []))]
  else []) ++
  (if truthyNum a.threshold then
    [("threshold".toList, PyVal.q (a.threshold.getD 0))]
  else []) ++
  (if truthyStr a.huggingface_token then
    [("huggingface_token".toList, PyVal.s (a.huggingface_token.getD []))]
  else [])

/-- Lines 211-224: register the verification filter with the computed
minimum level, or remove it when verification is disabled. -/
def applyVerification (a : Args) (r : Registry) : Registry :=
  if !a.no_verify then
    setItem r verifKey
      [("min_level".toList, ParamVal.num
        (if a.only_verified then VerifiedResult.VERIFIED_TRUE
         else VerifiedResult.UNVERIFIED).value)]
  else
    disable_filters r [verifKey]

/-- The warning logged for a disable request naming an absent filter. -/
def warnRedundant (n : Str) : Str :=
  "Redundant --disable-filter \"".toList ++ n ++ "\"".toList

/-- Lines 226-234: flatten the disable list, warn once per listed
identifier absent from the registry (the Python set difference is
modelled by `dedup` of the filtered flat list), then remove all listed
identifiers.  Returns (registry, warnings). -/
def applyDisable (a : Args) (r : Registry) : Registry × List Str :=
  if !a.disable_filter.isEmpty then
    let flat := a.disable_filter.flatten
    let redundant := (flat.filter (fun n => !((keys r).contains n))).dedup
    (disable_filters r flat, redundant.map warnRedundant)
  else
    (r, [])

/-- Lines 240-243: validate each custom filter reference and register it
with empty parameters; the first failing reference aborts the loop,
leaving earlier registrations in place, and its error is surfaced. -/
def applyCustomFilters (env : PyEnv) (r : Registry) : List Str → Registry × Option Str
  | [] => (r, none)
  | item :: rest =>
    match raiseIfInvalid env item with
    | some e => (r, some e)
    | none => applyCustomFilters env (setItem r item []) rest

/-- Observable outcome of `parse_args`: the final registry (reflecting the
mutable settings singleton, also when the call aborted), the warnings
logged, the set-up calls made to the optional filters, the computed
worker-core count, and the error raised (if any). -/
structure ParseResult where
  registry : Registry
  warnings : List Str
  wordlistPath : Option Str
  gibberishInit : Option (List (Str × PyVal))
  classifierInit : Option (List (Str × PyVal))
  numCores : Option (List Nat)
  error : Option Str
deriving DecidableEq

/-- `parse_args` (filters.py lines 156-243), as a function from the
argparse namespace and the prior registry state to the observable
outcome.  Stage order follows the source: excludes, wordlist, gibberish,
classifier (with the GPU-dependent worker-core count), verification,
disable list, custom filters. -/
def parse_args (env : PyEnv) (a : Args) (r0 : Registry) : ParseResult :=
  let r1 := applyExcludes a r0
  let wl := if env.wordlistEnabled && truthyStr a.word_list_file then
      a.word_list_file else none
  let gb := if env.gibberishEnabled then some (gibberishKwargs a) else none
  let cl := if env.classifierReady then some (classifierKwargs a) else none
  let nc := if env.classifierReady then
      some (if env.gpuAvailable then [3] else [1]) else none
  let r2 := applyVerification a r1
  let dres := applyDisable a r2
  let cres := applyCustomFilters env dres.1 a.filter.flatten
  { registry := cres.1, warnings := dres.2, wordlistPath := wl,
    gibberishInit := gb, classifierInit := cl, numCores := nc,
    error := cres.2 }

/-- The argparse layer applied to the raw `--filter` occurrences: each raw
string runs through the `valid_looking_paths` type converter (the first
failure aborts argument parsing) and `nargs=1` wraps each value in a
singleton list. -/
def processFilterArgs (env : PyEnv) (raws : List Str) :
    Except Str (List (List Str)) :=
  raws.mapM (fun s => (valid_looking_paths env.isFile s).map (fun v => [v]))

/-- End-to-end pipeline for custom filter references: argparse validation
followed by `parse_args` with the converted values. -/
def runFilterPipeline (env : PyEnv) (a : Args) (raws : List Str)
    (r0 : Registry) : Except Str ParseResult :=
  (processFilterArgs env raws).map
    (fun fl => parse_args env { a with filter := fl } r0)


/-! ### Registry lemmas -/

theorem alist_cons {β : Type} (p : Str × β) (r : List (Str × β)) (k : Str) :
    alist (p :: r) k = if p.1 = k then some p.2 else alist r k := by
  by_cases h : p.1 = k <;> simp [alist, List.find?_cons, h]

theorem alist_map_set (r : Registry) (k : Str) (v : Params) :
    alist (r.map (fun p => if p.1 == k then (k, v) else p)) k
      = (alist r k).map (fun _ => v) := by
  induction r with
  | nil => rfl
  | cons p r ih =>
    by_cases hp : p.1 = k
    · rw [List.map_cons, if_pos (by simp [hp]), alist_cons, alist_cons,
        if_pos hp, if_pos rfl]
      rfl
    · rw [List.map_cons, if_neg (by simp [hp]), alist_cons, alist_cons,
        if_neg hp, if_neg hp]
      exact ih

theorem alist_append {β : Type} (r s : List (Str × β)) (k : Str) :
    alist (r ++ s) k = ((alist r k).map some).getD (alist s k) := by
  induction r with
  | nil => rfl
  | cons p r ih =>
    rw [List.cons_append, alist_cons, alist_cons]
    by_cases hp : p.1 = k
    · rw [if_pos hp, if_pos hp]; rfl
    · rw [if_neg hp, if_neg hp]; exact ih

theorem any_key_iff (r : Registry) (k : Str) :
    (r.any fun p => p.1 == k) = true ↔ (alist r k).isSome := by
  induction r with
  | nil => simp [alist]
  | cons p r ih =>
    by_cases hp : p.1 = k
    · simp [List.any_cons, alist_cons, hp]
    · rw [List.any_cons, alist_cons, if_neg hp]
      have hb : (p.1 == k) = false := by simp [hp]
      rw [hb, Bool.false_or]
      exact ih

theorem alist_setItem_self (r : Registry) (k : Str) (v : Params) :
    alist (setItem r k v) k = some v := by
  unfold setItem
  split
  · rename_i h
    rw [alist_map_set]
    rcases Option.isSome_iff_exists.mp ((any_key_iff r k).mp h) with ⟨w, hw⟩
    rw [hw]; rfl
  · rename_i h
    have hn : alist r k = none := by
      cases ha : alist r k with
      | none => rfl
      | some w => exact absurd ((any_key_iff r k).mpr (by rw [ha]; rfl)) h
    rw [alist_append, hn]
    simp [alist_cons]

theorem alist_setItem_ne (r : Registry) (k k' : Str) (v : Params)
    (h : k' ≠ k) : alist (setItem r k' v) k = alist r k := by
  unfold setItem
  split
  · rename_i hany
    clear hany
    induction r with
    | nil => rfl
    | cons p r ih =>
      by_cases hp : p.1 = k'
      · rw [List.map_cons, if_pos (by simp [hp]), alist_cons, alist_cons,
          if_neg h, if_neg (hp ▸ h)]
        exact ih
      · rw [List.map_cons, if_neg (by simp [hp]), alist_cons, alist_cons]
        by_cases hpk : p.1 = k
        · rw [if_pos hpk, if_pos hpk]
        · rw [if_neg hpk, if_neg hpk]; exact ih
  · rw [alist_append]
    cases ha : alist r k with
    | none => simp [alist, alist_cons, h]
    | some w => rfl
theorem alist_disable_mem (r : Registry) (ks : List Str) (k : Str)
    (h : k ∈ ks) : alist (disable_filters r ks) k = none := by
  induction r with
  | nil => rfl
  | cons p r ih =>
    unfold disable_filters at ih ⊢
    rw [List.filter_cons]
    by_cases hp : ks.contains p.1
    · rw [if_neg (by simpa using hp)]
      exact ih
    · rw [if_pos (by simpa using hp), alist_cons,
        if_neg (fun he => hp (by simp [he, h]))]
      exact ih

theorem alist_disable_not_mem (r : Registry) (ks : List Str) (k : Str)
    (h : k ∉ ks) : alist (disable_filters r ks) k = alist r k := by
  induction r with
  | nil => rfl
  | cons p r ih =>
    unfold disable_filters at ih ⊢
    rw [List.filter_cons, alist_cons]
    by_cases hp : ks.contains p.1
    · have hpk : p.1 ≠ k := by
        intro he
        exact h (by simpa [he] using hp)
      rw [if_neg (by simpa using hp), if_neg hpk]
      exact ih
    · rw [if_pos (by simpa using hp), alist_cons]
      by_cases hpk : p.1 = k
      · rw [if_pos hpk, if_pos hpk]
      · rw [if_neg hpk, if_neg hpk]
        exact ih

theorem alist_customFilters_not_mem (env : PyEnv) (k : Str) :
    ∀ (items : List Str) (r : Registry), k ∉ items →
      alist (applyCustomFilters env r items).1 k = alist r k := by
  intro items
  induction items with
  | nil => intro r _; rfl
  | cons item rest ih =>
    intro r h
    unfold applyCustomFilters
    cases raiseIfInvalid env item with
    | some e => rfl
    | none =>
      rw [ih (setItem r item []) (fun hm => h (List.mem_cons_of_mem _ hm)),
        alist_setItem_ne r k item [] (fun he => h (he ▸ List.mem_cons_self _ _))]

theorem mem_keys_iff_any (r : Registry) (k : Str) :
    k ∈ keys r ↔ (r.any fun p => p.1 == k) = true := by
  constructor
  · intro h
    rcases List.mem_map.mp h with ⟨p, hp, he⟩
    exact List.any_eq_true.mpr ⟨p, hp, by simp [he]⟩
  · intro h
    rcases List.any_eq_true.mp h with ⟨p, hp, he⟩
    exact List.mem_map.mpr ⟨p, hp, by simpa using he⟩

theorem setItem_setItem (r : Registry) (k : Str) (v : Params) :
    setItem (setItem r k v) k v = setItem r k v := by
  have hany : ((setItem r k v).any fun p => p.1 == k) = true := by
    rw [any_key_iff, alist_setItem_self]
    rfl
  by_cases h : (r.any fun p => p.1 == k) = true
  · have hA : setItem r k v = r.map (fun p => if p.1 == k then (k, v) else p) := by
      unfold setItem
      rw [if_pos h]
    rw [hA] at hany
    conv_lhs => rw [hA]
    unfold setItem
    rw [if_pos hany, if_pos h, List.map_map]
    apply List.map_congr_left
    intro p _
    by_cases hp : p.1 = k
    · simp [hp]
    · simp [hp]
  · have hA : setItem r k v = r ++ [(k, v)] := by
      unfold setItem
      rw [if_neg h]
    rw [hA] at hany
    conv_lhs => rw [hA]
    unfold setItem
    rw [if_pos hany, if_neg h, List.map_append]
    have h1 : r.map (fun p => if p.1 == k then (k, v) else p) = r := by
      have hc : ∀ p ∈ r, (fun p => if p.1 == k then (k, v) else p) p = id p := by
        intro p hp
        have hne : ¬(p.1 = k) := by
          intro he
          exact h (List.any_eq_true.mpr ⟨p, hp, by simp [he]⟩)
        simp [hne]
      rw [List.map_congr_left hc, List.map_id]
    rw [h1]
    simp

theorem countKey_of_not_any (r : Registry) (k : Str)
    (h : ¬(r.any fun p => p.1 == k) = true) : countKey r k = 0 := by
  unfold countKey
  rw [List.countP_eq_zero]
  intro p hp
  intro hpk
  exact h (List.any_eq_true.mpr ⟨p, hp, hpk⟩)

theorem countKey_of_wf (r : Registry) (k : Str) (hwf : WF r)
    (h : (r.any fun p => p.1 == k) = true) : countKey r k = 1 := by
  induction r with
  | nil => simp at h
  | cons p r ih =>
    have hnd : p.1 ∉ keys r ∧ (keys r).Nodup := by
      have := hwf
      unfold WF keys at this
      rw [List.map_cons, List.nodup_cons] at this
      exact this
    unfold countKey
    rw [List.countP_cons]
    by_cases hp : p.1 = k
    · have hz : countKey r k = 0 := by
        apply countKey_of_not_any
        intro hany
        exact hnd.1 ((mem_keys_iff_any r p.1).mpr (by rw [hp]; exact hany))
      unfold countKey at hz
      rw [hz]
      simp [hp]
    · have hr : (r.any fun q => q.1 == k) = true := by
        rcases List.any_eq_true.mp h with ⟨q, hq, hqk⟩
        rcases List.mem_cons.mp hq with he | hm
        · rw [he] at hqk
          exact absurd (by simpa using hqk) hp
        · exact List.any_eq_true.mpr ⟨q, hm, hqk⟩
      have := ih hnd.2 hr
      unfold countKey at this
      rw [this]
      simp [hp]

theorem countKey_setItem (r : Registry) (k : Str) (v : Params)
    (hwf : WF r) : countKey (setItem r k v) k = 1 := by
  unfold setItem
  by_cases h : (r.any fun p => p.1 == k) = true
  · rw [if_pos h]
    unfold countKey
    rw [List.countP_map]
    have hc : r.countP ((fun p => p.1 == k) ∘ fun p => if p.1 == k then (k, v) else p)
        = r.countP (fun p => p.1 == k) := by
      apply List.countP_congr
      intro p _
      by_cases hp : p.1 = k
      · simp [hp]
      · simp [hp]
    rw [hc]
    exact countKey_of_wf r k hwf h
  · rw [if_neg h]
    unfold countKey
    rw [List.countP_append]
    have h0 : r.countP (fun p => p.1 == k) = 0 := countKey_of_not_any r k h
    rw [h0]
    simp

theorem disable_filters_idem (r : Registry) (ks : List Str) :
    disable_filters (disable_filters r ks) ks = disable_filters r ks := by
  unfold disable_filters
  rw [List.filter_filter]
  apply List.filter_congr
  intro p _
  rw [Bool.and_self]

theorem alist_applyDisable_not_mem (a : Args) (r : Registry) (k : Str)
    (h : k ∉ a.disable_filter.flatten) :
    alist (applyDisable a r).1 k = alist r k := by
  unfold applyDisable
  split
  · show alist (disable_filters r a.disable_filter.flatten) k = alist r k
    exact alist_disable_not_mem r _ k h
  · rfl

/-! ### Concrete fixtures -/

def env0 : PyEnv :=
  { isFile := [], modules := [], fileModules := [], wordlistEnabled := false,
    gibberishEnabled := false, classifierReady := false, gpuAvailable := false }

def args0 : Args :=
  { exclude_lines := [], exclude_files := [], exclude_secrets := [],
    word_list_file := none, gibberish_model_file := none,
    gibberish_limit := none, huggingface_model := none, threshold := none,
    huggingface_token := none, no_verify := false, only_verified := false,
    disable_filter := [], filter := [] }

/-! ### Claim theorems -/

/-- C9: when the classifier filter is ready, the worker-core count that
`parse_args` computes and hands onward (`args.num_cores`) is exactly
`[3]` when an accelerator (GPU) is detected and exactly `[1]` otherwise. -/
theorem C9_classifier_worker_cores (env : PyEnv) (a : Args) (r0 : Registry)
    (h : env.classifierReady = true) :
    (parse_args env a r0).numCores
      = some (if env.gpuAvailable = true then [3] else [1]) := by
  unfold parse_args
  simp [h]

/-- C9 witness: with the classifier ready and a GPU detected the computed
count is `[3]`; without a GPU it is `[1]`. -/
theorem C9_witness :
    (parse_args { env0 with classifierReady := true, gpuAvailable := true }
      args0 []).numCores = some [3] ∧
    (parse_args { env0 with classifierReady := true }
      args0 []).numCores = some [1] :=
  ⟨C9_classifier_worker_cores _ args0 [] rfl,
   C9_classifier_worker_cores _ args0 [] rfl⟩

/-- C10: an optional numeric filter parameter supplied as 0 (gibberish
limit, classifier threshold) or an optional string parameter supplied as
the empty string (huggingface model/token, gibberish model path, word
list path) is treated exactly as if omitted: `parse_args` behaves
identically, so the keyword argument is not passed to the filter's
set-up call and the filter's own default applies. -/
theorem C10_zero_and_empty_params_omitted (env : PyEnv) (a : Args)
    (r0 : Registry) :
    parse_args env { a with gibberish_limit := some 0 } r0
      = parse_args env { a with gibberish_limit := none } r0 ∧
    parse_args env { a with threshold := some 0 } r0
      = parse_args env { a with threshold := none } r0 ∧
    parse_args env { a with huggingface_model := some [] } r0
      = parse_args env { a with huggingface_model := none } r0 ∧
    parse_args env { a with huggingface_token := some [] } r0
      = parse_args env { a with huggingface_token := none } r0 ∧
    parse_args env { a with gibberish_model_file := some [] } r0
      = parse_args env { a with gibberish_model_file := none } r0 ∧
    parse_args env { a with word_list_file := some [] } r0
      = parse_args env { a with word_list_file := none } r0 := by
  refine ⟨?_, ?_, ?_, ?_, ?_, ?_⟩ <;>
    · unfold parse_args
      simp [applyExcludes, gibberishKwargs, classifierKwargs,
        applyVerification, applyDisable, truthyStr, truthyNum]

/-- C4: the verification-policy step of `parse_args`: when verification
is not disabled, the verification filter is registered with `min_level`
equal to VERIFIED_TRUE's rank when only-verified was requested and
UNVERIFIED's rank otherwise; when `no_verify` is set the identifier is
removed (idempotently if absent) and — also when `only_verified` is
simultaneously set — the verification filter is never present in the
final registry.  The hypotheses keep the later disable/custom stages
from touching the verification identifier. -/
theorem C4_verification_policy (env : PyEnv) (a : Args) (r0 : Registry)
    (hd : verifKey ∉ a.disable_filter.flatten)
    (hf : verifKey ∉ a.filter.flatten) :
    (a.no_verify = false →
      alist (parse_args env a r0).registry verifKey =
        some [("min_level".toList,
          ParamVal.num (if a.only_verified = true then VerifiedResult.VERIFIED_TRUE
            else VerifiedResult.UNVERIFIED).value)]) ∧
    (a.no_verify = true →
      alist (parse_args env a r0).registry verifKey = none) := by
  have hreg : (parse_args env a r0).registry =
      (applyCustomFilters env
        (applyDisable a (applyVerification a (applyExcludes a r0))).1
        a.filter.flatten).1 := rfl
  constructor
  · intro hn
    rw [hreg, alist_customFilters_not_mem env verifKey _ _ hf,
      alist_applyDisable_not_mem a _ verifKey hd]
    unfold applyVerification
    rw [hn]
    show alist (setItem _ verifKey _) verifKey = _
    rw [alist_setItem_self]
  · intro hn
    rw [hreg, alist_customFilters_not_mem env verifKey _ _ hf,
      alist_applyDisable_not_mem a _ verifKey hd]
    unfold applyVerification
    rw [hn]
    show alist (disable_filters _ [verifKey]) verifKey = none
    exact alist_disable_mem _ [verifKey] verifKey (List.mem_singleton.mpr rfl)

/-- C4 witness: with only-verified and no flags bypassing the later
stages, the registry holds min_level 3 (VERIFIED_TRUE); with no flags it
holds min_level 1 (UNVERIFIED); with no-verify (even together with
only-verified) the verification filter is absent. -/
theorem C4_witness :
    alist (parse_args env0 { args0 with only_verified := true } []).registry
      verifKey = some [("min_level".toList, ParamVal.num 3)] ∧
    alist (parse_args env0 args0 []).registry verifKey
      = some [("min_level".toList, ParamVal.num 1)] ∧
    alist (parse_args env0
      { args0 with no_verify := true, only_verified := true } []).registry
      verifKey = none :=
  ⟨(C4_verification_policy env0 _ [] (by decide) (by decide)).1 rfl,
   (C4_verification_policy env0 args0 [] (by decide) (by decide)).1 rfl,
   (C4_verification_policy env0 _ [] (by decide) (by decide)).2 rfl⟩

/-- C7: disabling and custom-filter registration are both idempotent:
removing the same identifiers twice equals removing them once, and
registering the same (valid) custom filter reference twice yields the
same registry as registering it once, holding exactly one entry for
that identifier. -/
theorem C7_idempotence (env : PyEnv) (r : Registry) (ks : List Str)
    (f : Str) (hwf : WF r) (hv : raiseIfInvalid env f = none) :
    disable_filters (disable_filters r ks) ks = disable_filters r ks ∧
    applyCustomFilters env r [f, f] = applyCustomFilters env r [f] ∧
    countKey (applyCustomFilters env r [f, f]).1 f = 1 := by
  refine ⟨disable_filters_idem r ks, ?_, ?_⟩
  · simp only [applyCustomFilters, hv]
    rw [setItem_setItem]
  · simp only [applyCustomFilters, hv]
    show countKey (setItem (setItem r f []) f []) f = 1
    rw [setItem_setItem]
    exact countKey_setItem r f [] hwf

/-- C7 witness: on the empty registry, with a resolvable module
reference, both idempotence equations hold and the double registration
leaves exactly one entry. -/
theorem C7_witness :
    let envW : PyEnv := { env0 with
      modules := [("m".toList, [("f".toList, true)])] }
    disable_filters (disable_filters [] ["x".toList]) ["x".toList]
        = disable_filters [] ["x".toList] ∧
    applyCustomFilters envW [] ["m.f".toList, "m.f".toList]
        = applyCustomFilters envW [] ["m.f".toList] ∧
    countKey (applyCustomFilters envW [] ["m.f".toList, "m.f".toList]).1
        "m.f".toList = 1 :=
  C7_idempotence _ [] ["x".toList] "m.f".toList
    (by unfold WF keys; simp) (by decide)

/-- Count of occurrences of a string in a list of strings. -/
def countStr (l : List Str) (s : Str) : Nat := l.countP (fun x => x == s)

theorem warnRedundant_injective : Function.Injective warnRedundant := by
  intro x y h
  unfold warnRedundant at h
  exact List.append_cancel_left (List.append_cancel_right h)

theorem countStr_map_warn (l : List Str) (n : Str) :
    countStr (l.map warnRedundant) (warnRedundant n) = countStr l n := by
  unfold countStr
  rw [List.countP_map]
  apply List.countP_congr
  intro x _
  show ((fun y => y == warnRedundant n) ∘ warnRedundant) x = true
    ↔ (x == n) = true
  simp only [Function.comp_apply, beq_iff_eq]
  exact ⟨fun h => warnRedundant_injective h, fun h => by rw [h]⟩

theorem countStr_eq_one_of_nodup (l : List Str) (n : Str) (hnd : l.Nodup)
    (hm : n ∈ l) : countStr l n = 1 := by
  induction l with
  | nil => cases hm
  | cons x l ih =>
    unfold countStr
    rw [List.countP_cons]
    rcases List.mem_cons.mp hm with he | hml
    · have hx : x ∉ l := (List.nodup_cons.mp hnd).1
      have h0 : l.countP (fun y => y == n) = 0 := by
        rw [List.countP_eq_zero]
        intro y hy hyn
        have hyn' : y = n := by simpa using hyn
        exact hx (by
          have hyx : y = x := hyn'.trans he
          exact hyx ▸ hy)
      rw [h0, he]
      simp
    · have hne : x ≠ n := by
        intro he2
        exact (List.nodup_cons.mp hnd).1 (he2 ▸ hml)
      have hr := ih (List.nodup_cons.mp hnd).2 hml
      unfold countStr at hr
      rw [hr]
      simp [hne]

theorem not_mem_keys_disable (r : Registry) (ks : List Str) (m : Str)
    (h : m ∈ ks) : m ∉ keys (disable_filters r ks) := by
  intro hm
  rcases List.mem_map.mp hm with ⟨p, hp, he⟩
  have hf := List.of_mem_filter hp
  have : p.1 ∉ ks := by simpa using hf
  exact this (by rw [he]; exact h)

/-- C8: for each identifier listed in `--disable-filter` that is absent
from the registry, exactly one warning referencing it is emitted and
nothing is raised (the stage is a total function); afterwards every
listed identifier is absent from the registry, whether or not it was
present. -/
theorem C8_redundant_disable (a : Args) (r : Registry) (n : Str)
    (h0 : a.disable_filter ≠ [])
    (h1 : n ∈ a.disable_filter.flatten)
    (h2 : n ∉ keys r) :
    countStr (applyDisable a r).2 (warnRedundant n) = 1 ∧
    ∀ m ∈ a.disable_filter.flatten, m ∉ keys (applyDisable a r).1 := by
  have hne : (!a.disable_filter.isEmpty) = true := by
    simp [List.isEmpty_iff, h0]
  unfold applyDisable
  rw [if_pos hne]
  constructor
  · show countStr
      (((a.disable_filter.flatten.filter
        (fun x => !((keys r).contains x))).dedup).map warnRedundant)
      (warnRedundant n) = 1
    rw [countStr_map_warn]
    apply countStr_eq_one_of_nodup _ _ (List.nodup_dedup _)
    rw [List.mem_dedup]
    exact List.mem_filter.mpr ⟨h1, by simpa using h2⟩
  · intro m hm
    exact not_mem_keys_disable r _ m hm

/-- C8 witness: disabling an absent identifier on the empty registry
warns exactly once about it and leaves it (and everything listed)
absent. -/
theorem C8_witness :
    countStr (applyDisable { args0 with disable_filter := [["x".toList]] }
      []).2 (warnRedundant "x".toList) = 1 ∧
    ∀ m ∈ ([["x".toList]] : List (List Str)).flatten,
      m ∉ keys (applyDisable { args0 with disable_filter := [["x".toList]] }
        []).1 :=
  C8_redundant_disable _ [] "x".toList (by decide) (by decide) (by decide)

theorem parse_args_registry (env : PyEnv) (a : Args) (r0 : Registry) :
    (parse_args env a r0).registry
      = (applyCustomFilters env
          (applyDisable a (applyVerification a (applyExcludes a r0))).1
          a.filter.flatten).1 := rfl

theorem parse_args_error (env : PyEnv) (a : Args) (r0 : Registry) :
    (parse_args env a r0).error
      = (applyCustomFilters env
          (applyDisable a (applyVerification a (applyExcludes a r0))).1
          a.filter.flatten).2 := rfl

theorem applyCustomFilters_single (env : PyEnv) (r : Registry) (v : Str)
    (h : raiseIfInvalid env v = none) :
    applyCustomFilters env r [v] = (setItem r v [], none) := by
  simp only [applyCustomFilters, h]

/-- C2 (amended): resolution accepts only plain functions for namespaced
references — a resolved module attribute whose is-function flag is false
is rejected with the "is not a filter function" error — but for
local-file references the resolution step checks only that the named
symbol exists: a present symbol is accepted whatever its callability
flag. -/
theorem C2_callability_check (env : PyEnv) :
    (∀ path mp fn attrs, (urlparse path).scheme = [] →
      rsplitDot path = some (mp, fn) →
      alist env.modules mp = some attrs →
      alist attrs fn = some false →
      raiseIfInvalid env path = some (msgNotFilterFunction path)) ∧
    (∀ path fp fn attrs b, (urlparse path).scheme = "file".toList →
      splitDC (path.drop fileMarker.length) = [fp, fn] →
      alist env.fileModules fp = some attrs →
      alist attrs fn = some b →
      raiseIfInvalid env path = none) := by
  constructor
  · intro path mp fn attrs h1 h2 h3 h4
    simp [raiseIfInvalid, h1, h2, h3, h4]
  · intro path fp fn attrs b h1 h2 h3 h4
    have hx : (("file".toList : Str).isEmpty) = false := by decide
    simp [raiseIfInvalid, h1, h2, h3, h4, hx]

def envC2 : PyEnv :=
  { env0 with
    modules := [("m".toList, [("g".toList, false)])],
    isFile := ["d/f.py".toList],
    fileModules := [("d/f.py".toList, [("x".toList, false)])] }

/-- C2 counterexample: in an environment where local file `d/f.py`
exposes a symbol `x` that is not callable (flag false), resolution of
`file://d/f.py::x` succeeds — the claim says such a reference is
rejected at semantic-validation time. -/
theorem C2_counterexample :
    alist envC2.fileModules ("d/f.py".toList)
      = some [("x".toList, false)] ∧
    alist [("x".toList, false)] ("x".toList) = some false ∧
    raiseIfInvalid envC2 ("file://d/f.py::x".toList) = none := by
  refine ⟨rfl, rfl, ?_⟩
  decide

/-- C2 witness: a namespaced reference resolving to a non-function is
rejected with the exact message; a file reference to a non-callable but
existing symbol is accepted. -/
theorem C2_witness :
    raiseIfInvalid envC2 ("m.g".toList)
      = some (msgNotFilterFunction ("m.g".toList)) ∧
    raiseIfInvalid envC2 ("file://d/f.py::x".toList) = none :=
  ⟨(C2_callability_check envC2).1 "m.g".toList "m".toList "g".toList
      [("g".toList, false)] (by decide) (by decide) (by decide) (by decide),
   (C2_callability_check envC2).2 "file://d/f.py::x".toList
      ("d/f.py".toList) ("x".toList) [("x".toList, false)] false
      (by decide) (by decide) (by decide) (by decide)⟩

/-- C3 (amended): a successfully validated custom filter reference is
registered under the *normalized* reference string — the raw string
when it already carries a scheme or contains no `::` delimiter, and the
raw string with `file://` prepended for a scheme-less local-file
reference — with empty parameters. -/
theorem C3_registered_key_normalized (env : PyEnv) (a : Args)
    (r0 : Registry) (raw v : Str)
    (h1 : valid_looking_paths env.isFile raw = Except.ok v)
    (h2 : raiseIfInvalid env v = none) :
    v = normalizeRef raw ∧
    normalizeRef raw = (if (urlparse raw).scheme.isEmpty && hasColons raw
      then fileMarker ++ raw else raw) ∧
    alist (parse_args env { a with filter := [[v]] } r0).registry v
      = some [] ∧
    (parse_args env { a with filter := [[v]] } r0).error = none := by
  refine ⟨?_, rfl, ?_, ?_⟩
  · unfold valid_looking_paths at h1
    simp only [] at h1
    split at h1
    · split at h1
      · cases h1
      · split at h1
        · cases h1
        · injection h1 with h
          exact h.symm
    · split at h1
      · cases h1
      · injection h1 with h
        exact h.symm
  · rw [parse_args_registry]
    have hfl : ({ a with filter := [[v]] } : Args).filter.flatten = [v] := rfl
    rw [hfl, applyCustomFilters_single env _ v h2, alist_setItem_self]
  · rw [parse_args_error]
    have hfl : ({ a with filter := [[v]] } : Args).filter.flatten = [v] := rfl
    rw [hfl, applyCustomFilters_single env _ v h2]

def envC3 : PyEnv :=
  { env0 with
    isFile := ["d/f.py".toList],
    fileModules := [("d/f.py".toList, [("fn".toList, true)])] }

/-- C3 counterexample: the scheme-less local reference `d/f.py::fn`
validates to the normalized string `file://d/f.py::fn`, and the
end-to-end pipeline registers the entry under the normalized string,
not under the raw string the user supplied. -/
theorem C3_counterexample :
    valid_looking_paths envC3.isFile ("d/f.py::fn".toList)
      = Except.ok ("file://d/f.py::fn".toList) ∧
    ("file://d/f.py::fn".toList : Str) ≠ "d/f.py::fn".toList ∧
    (runFilterPipeline envC3 args0 ["d/f.py::fn".toList] []).toOption.map
      (fun res => (alist res.registry ("d/f.py::fn".toList),
        alist res.registry ("file://d/f.py::fn".toList)))
      = some (none, some []) := by
  refine ⟨by rfl, by decide, ?_⟩
  decide

/-- C3 witness: the amended statement at the concrete reference
`d/f.py::fn` in an environment where that file exists and exposes
function `fn`. -/
theorem C3_witness :
    ("file://d/f.py::fn".toList : Str) = normalizeRef ("d/f.py::fn".toList) ∧
    normalizeRef ("d/f.py::fn".toList)
      = (if (urlparse ("d/f.py::fn".toList)).scheme.isEmpty
          && hasColons ("d/f.py::fn".toList)
        then fileMarker ++ "d/f.py::fn".toList else "d/f.py::fn".toList) ∧
    alist (parse_args envC3
      { args0 with filter := [["file://d/f.py::fn".toList]] } []).registry
      ("file://d/f.py::fn".toList) = some [] ∧
    (parse_args envC3
      { args0 with filter := [["file://d/f.py::fn".toList]] } []).error
      = none :=
  C3_registered_key_normalized envC3 args0 [] ("d/f.py::fn".toList)
    ("file://d/f.py::fn".toList) (by rfl) (by decide)

theorem applyCustomFilters_fail (env : PyEnv) (bad : Str) (e : Str)
    (rest : List Str) (hb : raiseIfInvalid env bad = some e) :
    ∀ (good : List Str) (r : Registry),
      (∀ g ∈ good, raiseIfInvalid env g = none) →
      applyCustomFilters env r (good ++ bad :: rest)
        = (good.foldl (fun acc g => setItem acc g []) r, some e) := by
  intro good
  induction good with
  | nil =>
    intro r _
    simp only [List.nil_append, applyCustomFilters, hb, List.foldl_nil]
  | cons g gs ih =>
    intro r hg
    rw [List.cons_append]
    simp only [applyCustomFilters, hg g (List.mem_cons_self g gs),
      List.foldl_cons]
    exact ih (setItem r g []) (fun x hx => hg x (List.mem_cons_of_mem g hx))

/-- C1 (amended): when a custom filter reference fails resolution,
`parse_args` aborts with that reference's specific error, but the
registry is *not* rolled back: it retains the exclude-pattern and
verification entries and the custom filters listed before the failing
one, written earlier in the same call (references after the failing one
are not processed). -/
theorem C1_partial_registration_on_failure (env : PyEnv) (a : Args)
    (r0 : Registry) (good : List Str) (bad : Str) (rest : List Str)
    (e : Str)
    (hf : a.filter.flatten = good ++ bad :: rest)
    (hg : ∀ g ∈ good, raiseIfInvalid env g = none)
    (hb : raiseIfInvalid env bad = some e) :
    (parse_args env a r0).error = some e ∧
    (parse_args env a r0).registry
      = good.foldl (fun acc g => setItem acc g [])
          (applyDisable a (applyVerification a (applyExcludes a r0))).1 := by
  have h := applyCustomFilters_fail env bad e rest hb good
    (applyDisable a (applyVerification a (applyExcludes a r0))).1 hg
  constructor
  · rw [parse_args_error, hf, h]
  · rw [parse_args_registry, hf, h]

def envC1 : PyEnv := { env0 with modules := [("m".toList, [("f".toList, true)])] }

def argsC1 : Args :=
  { args0 with
    exclude_lines := ["x".toList],
    filter := [["m.f".toList], ["nomod.g".toList]] }

/-- C1 counterexample: with an exclude pattern and two custom filters of
which the second fails to import, `parse_args` raises the import error,
yet the registry is not unchanged from its pre-call (empty) state: it
retains the exclude-lines entry, the verification entry and the first
custom filter. -/
theorem C1_counterexample :
    (parse_args envC1 argsC1 []).error
      = some (msgCannotImportModule ("nomod.g".toList)) ∧
    (parse_args envC1 argsC1 []).registry ≠ [] ∧
    alist (parse_args envC1 argsC1 []).registry ("m.f".toList) = some [] ∧
    alist (parse_args envC1 argsC1 []).registry excludeLineKey
      = some [("pattern".toList, ParamVal.strs ["x".toList])] ∧
    alist (parse_args envC1 argsC1 []).registry verifKey
      = some [("min_level".toList, ParamVal.num 1)] := by
  refine ⟨by rfl, by decide, by rfl, by rfl, by rfl⟩

/-- C1 witness: the amended statement at the concrete failing scenario
of the counterexample. -/
theorem C1_witness :
    (parse_args envC1 argsC1 []).error
      = some (msgCannotImportModule ("nomod.g".toList)) ∧
    (parse_args envC1 argsC1 []).registry
      = ["m.f".toList].foldl (fun acc g => setItem acc g [])
          (applyDisable argsC1
            (applyVerification argsC1 (applyExcludes argsC1 []))).1 :=
  C1_partial_registration_on_failure envC1 argsC1 [] ["m.f".toList]
    ("nomod.g".toList) [] (msgCannotImportModule ("nomod.g".toList))
    (by rfl) (by decide) (by rfl)

/-! ### String-scanning lemmas used for the C5 analysis -/

